import Mathlib

/-!
Shallow embedding of the graphql-loot in-memory relational core.

The source holds three module-level arrays (`db.games`, `db.authors`,
`db.reviews` in `_db.js`) and a resolver object (`index.js`) whose
functions read them or reassign `db.games`.  We model the mutable module
state as an explicit `DB` value threaded through every operation:

  * query resolvers (`Query.games`, `Query.game`, ...) read the state;
  * nested resolvers (`Game.reviews`, `Review.game`, ...) read the state
    and a parent record;
  * mutations (`Mutation.addGame`, `Mutation.updateGame`,
    `Mutation.deleteGame`) return their JS return value paired with the
    successor state.

`Math.random()` (used only for id generation in `addGame`) is modelled as
an explicit rational draw `rand` with `0 ≤ rand < 1`.
-/

/-- A record of the `games` array: `{ id, title, platform }`. -/
structure Game where
  id : String
  title : String
  platform : List String
deriving DecidableEq

/-- A record of the `authors` array: `{ id, name, verified }`. -/
structure Author where
  id : String
  name : String
  verified : Bool
deriving DecidableEq

/-- A record of the `reviews` array: `{ id, rating, content, author_id, game_id }`. -/
structure Review where
  id : String
  rating : Int
  content : String
  author_id : String
  game_id : String
deriving DecidableEq

/-- The module state of `_db.js`: the three arrays exported as `db`. -/
structure DB where
  games : List Game
  authors : List Author
  reviews : List Review
deriving DecidableEq

/-- The seeded `games` array of `_db.js`. -/
def db.games : List Game :=
  [{ id := "1", title := "Legend of Code", platform := ["PC", "Switch"] },
   { id := "2", title := "Bug Hunter 3000", platform := ["Xbox", "PlayStation"] },
   { id := "3", title := "Terminal Quest", platform := ["PC"] }]

/-- The seeded `authors` array of `_db.js`. -/
def db.authors : List Author :=
  [{ id := "201", name := "Alice Devlin", verified := true },
   { id := "202", name := "Bob Coder", verified := false },
   { id := "203", name := "Charlie Script", verified := true }]

/-- The seeded `reviews` array of `_db.js`. -/
def db.reviews : List Review :=
  [{ id := "101", rating := 5, content := "Absolutely loved the gameplay and story!",
     author_id := "201", game_id := "1" },
   { id := "102", rating := 3, content := "Fun mechanics but gets repetitive after a while.",
     author_id := "202", game_id := "2" },
   { id := "103", rating := 4, content := "Solid experience, great graphics and soundtrack.",
     author_id := "203", game_id := "3" },
   { id := "104", rating := 2, content := "Too many bugs, felt unfinished.",
     author_id := "202", game_id := "1" }]

/-- The process-start state: the three arrays as seeded in `_db.js`. -/
def seedDB : DB :=
  { games := db.games, authors := db.authors, reviews := db.reviews }

namespace Query

/-- Resolver `Query.games`: `return db.games`. -/
def games (db : DB) : List Game :=
  db.games

/-- Resolver `Query.reviews`: `return db.reviews`. -/
def reviews (db : DB) : List Review :=
  db.reviews

/-- Resolver `Query.authors`: `return db.authors`. -/
def authors (db : DB) : List Author :=
  db.authors

/-- Resolver `Query.review`: `db.reviews.find((review) => review.id === args.id)`. -/
def review (db : DB) (id : String) : Option Review :=
  db.reviews.find? (fun review => review.id == id)

/-- Resolver `Query.game`: `db.games.find((game) => game.id === args.id)`. -/
def game (db : DB) (id : String) : Option Game :=
  db.games.find? (fun game => game.id == id)

/-- Resolver `Query.author`: `db.authors.find((author) => author.id === args.id)`. -/
def author (db : DB) (id : String) : Option Author :=
  db.authors.find? (fun author => author.id == id)

end Query

/-- Resolver `Game.reviews`:
`db.reviews.filter((review) => review.game_id === parent.id)`. -/
def Game.reviews (db : DB) (parent : Game) : List Review :=
  db.reviews.filter (fun review => review.game_id == parent.id)

/-- Resolver `Author.reviews`:
`db.reviews.filter((review) => review.author_id === parent.id)`. -/
def Author.reviews (db : DB) (parent : Author) : List Review :=
  db.reviews.filter (fun review => review.author_id == parent.id)

/-- Resolver `Review.author`:
`db.authors.find((author) => author.id === parent.author_id)`. -/
def Review.author (db : DB) (parent : Review) : Option Author :=
  db.authors.find? (fun author => author.id == parent.author_id)

/-- Resolver `Review.game`:
`db.games.find((game) => game.id === parent.game_id)`. -/
def Review.game (db : DB) (parent : Review) : Option Game :=
  db.games.find? (fun game => game.id == parent.game_id)

/-- The `AddGameInput` shape of the schema: `{ title, platform }`. -/
structure AddGameInput where
  title : String
  platform : List String
deriving DecidableEq

/-- The `EditGameInput` shape of the schema: both fields optional;
`none` models a key absent from the `edits` object. -/
structure EditGameInput where
  title : Option String
  platform : Option (List String)
deriving DecidableEq

/-- The id generation of `addGame`:
`Math.floor(Math.random() * 10000).toString()`, where `rand` is the draw
of `Math.random()`, a number in `[0, 1)`. -/
def genId (rand : ℚ) : String :=
  Nat.repr (Int.toNat ⌊rand * 10000⌋)

/-- The object spread `{ ...game, ...args.edits }` of `updateGame`:
keys present in `edits` override the fields of `game`; absent keys leave
them untouched. -/
def mergeEdits (game : Game) (edits : EditGameInput) : Game :=
  { game with
      title := edits.title.getD game.title,
      platform := edits.platform.getD game.platform }

namespace Mutation

/-- Resolver `Mutation.deleteGame`: reassigns
`db.games = db.games.filter((game) => game.id !== args.id)` and returns
the new `db.games`.  First component: the JS return value; second: the
successor state. -/
def deleteGame (db : DB) (id : String) : List Game × DB :=
  let games := db.games.filter (fun game => game.id != id)
  (games, { db with games := games })

/-- Resolver `Mutation.addGame`: builds
`{ ...args.game, id: Math.floor(Math.random() * 10000).toString() }`,
pushes it onto `db.games`, and returns it.  `rand` is the draw of
`Math.random()`. -/
def addGame (db : DB) (rand : ℚ) (input : AddGameInput) : Game × DB :=
  let game : Game :=
    { id := genId rand, title := input.title, platform := input.platform }
  (game, { db with games := db.games ++ [game] })

/-- Resolver `Mutation.updateGame`: reassigns
`db.games = db.games.map((game) => game.id === args.id ? { ...game, ...args.edits } : game)`
and returns `db.games.find((game) => game.id === args.id)`. -/
def updateGame (db : DB) (id : String) (edits : EditGameInput) : Option Game × DB :=
  let games := db.games.map (fun game =>
    if game.id == id then mergeEdits game edits else game)
  (games.find? (fun game => game.id == id), { db with games := games })

end Mutation

/-! ## Seed records used in concrete scenarios -/

/-- Seed game "1" (first element of `db.games`). -/
def game1 : Game :=
  { id := "1", title := "Legend of Code", platform := ["PC", "Switch"] }

/-- Seed review "101" (first element of `db.reviews`). -/
def review101 : Review :=
  { id := "101", rating := 5, content := "Absolutely loved the gameplay and story!",
    author_id := "201", game_id := "1" }

/-- Seed review "104" (fourth element of `db.reviews`). -/
def review104 : Review :=
  { id := "104", rating := 2, content := "Too many bugs, felt unfinished.",
    author_id := "202", game_id := "1" }

/-! ## General list lemmas -/

/-- A successful linear scan returns the first match: the list splits into a
prefix of non-matches, the returned element, and a suffix. -/
theorem find?_eq_some_first {α : Type} {p : α → Bool} {l : List α} {a : α}
    (h : l.find? p = some a) :
    p a = true ∧ ∃ s t, l = s ++ a :: t ∧ ∀ x ∈ s, p x = false := by
  induction l with
  | nil => simp [List.find?] at h
  | cons b l ih =>
    by_cases hb : p b = true
    · rw [List.find?_cons_of_pos _ hb] at h
      cases h
      exact ⟨hb, [], l, rfl, by simp⟩
    · rw [List.find?_cons_of_neg _ (by simpa using hb)] at h
      obtain ⟨pa, s, t, rfl, hs⟩ := ih h
      refine ⟨pa, b :: s, t, rfl, ?_⟩
      intro x hx
      rcases List.mem_cons.mp hx with rfl | hx
      · simpa using hb
      · exact hs x hx

/-- A list with exactly one element satisfying `p` splits around that element,
and removing the matches (keeping the complement) concatenates the two sides. -/
theorem countP_eq_one_decomp {α : Type} (p : α → Bool) :
    ∀ l : List α, l.countP p = 1 →
    ∃ s a t, l = s ++ a :: t ∧ p a = true ∧ (∀ x ∈ s, p x = false) ∧
      (∀ x ∈ t, p x = false) ∧ l.filter (fun x => !(p x)) = s ++ t := by
  intro l
  induction l with
  | nil => intro h; simp at h
  | cons b l ih =>
    intro h
    rw [List.countP_cons] at h
    by_cases hb : p b = true
    · have hl : l.countP p = 0 := by rw [if_pos hb] at h; omega
      have hall : ∀ x ∈ l, p x = false := by
        intro x hx
        simpa using List.countP_eq_zero.mp hl x hx
      refine ⟨[], b, l, by simp, hb, by simp, hall, ?_⟩
      rw [List.filter_cons]
      simp only [hb, Bool.not_true, if_false]
      exact List.filter_eq_self.mpr (by intro x hx; simp [hall x hx])
    · have hpb : p b = false := by simpa using hb
      have hl : l.countP p = 1 := by simpa [hpb] using h
      obtain ⟨s, a, t, rfl, pa, hs, ht, hf⟩ := ih hl
      refine ⟨b :: s, a, t, by simp, pa, ?_, ht, ?_⟩
      · intro x hx
        rcases List.mem_cons.mp hx with rfl | hx
        · exact hpb
        · exact hs x hx
      · rw [List.filter_cons]
        simp only [hpb, Bool.not_false, if_true, hf]
        rfl

/-- The digit accumulator of `Nat.toDigitsCore` never shrinks. -/
theorem length_le_toDigitsCore_length (b : Nat) :
    ∀ (f n : Nat) (l : List Char), l.length ≤ (Nat.toDigitsCore b f n l).length := by
  intro f
  induction f with
  | zero => intro n l; simp [Nat.toDigitsCore]
  | succ f ih =>
    intro n l
    simp only [Nat.toDigitsCore]
    split
    · simp
    · exact le_trans (by simp) (ih _ _)

/-- The decimal representation of a natural number is never the empty string. -/
theorem one_le_repr_length (n : Nat) : 1 ≤ (Nat.repr n).length := by
  simp only [Nat.repr, Nat.toDigits, String.length, List.asString]
  simp only [Nat.toDigitsCore]
  split
  · simp
  · exact le_trans (by simp) (length_le_toDigitsCore_length 10 _ _ _)

/-! ## Claim theorems -/

/-- C1: For every game `g` and every store state, the `Game.reviews` resolver
returns exactly the reviews `r` with `r.game_id = g.id`, in the insertion order
of the reviews collection (a sublist of it), returns the empty list (never
absent) when no review references `g`, and on the seed data the game with id
"1" yields exactly reviews "101" then "104" in that order. -/
theorem reviewsForGame_spec (db : DB) (g : Game) :
    List.Sublist (Game.reviews db g) db.reviews ∧
    (∀ r : Review, r ∈ Game.reviews db g ↔ r ∈ db.reviews ∧ r.game_id = g.id) ∧
    ((∀ r ∈ db.reviews, r.game_id ≠ g.id) → Game.reviews db g = []) ∧
    Game.reviews seedDB game1 = [review101, review104] := by
  refine ⟨List.filter_sublist _, ?_, ?_, by decide⟩
  · intro r
    simp [Game.reviews, List.mem_filter]
  · intro h
    apply List.filter_eq_nil_iff.mpr
    intro r hr
    simpa using h r hr

/-- Witness for C1: a store whose only review references a different game id
yields the empty list. -/
theorem reviewsForGame_spec_w :
    Game.reviews
      { games := [], authors := [],
        reviews := [{ id := "9", rating := 1, content := "x",
                      author_id := "9", game_id := "2" }] }
      { id := "1", title := "t", platform := [] } = [] :=
  (reviewsForGame_spec _ _).2.2.1 (by decide)

/-- C5: `Query.game` (and analogously `Query.author`, `Query.review`) returns
the first record in insertion order whose id equals the argument, and `none`
when no record matches; with duplicate ids the first match wins. -/
theorem findById_first_match (db : DB) (id : String) :
    (Query.game db id = none ↔ ∀ g ∈ db.games, g.id ≠ id) ∧
    (∀ g : Game, Query.game db id = some g →
      g.id = id ∧ ∃ s t, db.games = s ++ g :: t ∧ ∀ x ∈ s, x.id ≠ id) ∧
    (Query.author db id = none ↔ ∀ a ∈ db.authors, a.id ≠ id) ∧
    (∀ a : Author, Query.author db id = some a →
      a.id = id ∧ ∃ s t, db.authors = s ++ a :: t ∧ ∀ x ∈ s, x.id ≠ id) ∧
    (Query.review db id = none ↔ ∀ r ∈ db.reviews, r.id ≠ id) ∧
    (∀ r : Review, Query.review db id = some r →
      r.id = id ∧ ∃ s t, db.reviews = s ++ r :: t ∧ ∀ x ∈ s, x.id ≠ id) := by
  refine ⟨?_, ?_, ?_, ?_, ?_, ?_⟩
  · simp [Query.game, List.find?_eq_none]
  · intro g h
    obtain ⟨pg, s, t, hl, hs⟩ := find?_eq_some_first h
    exact ⟨by simpa using pg, s, t, hl, fun x hx => by simpa using hs x hx⟩
  · simp [Query.author, List.find?_eq_none]
  · intro a h
    obtain ⟨pa, s, t, hl, hs⟩ := find?_eq_some_first h
    exact ⟨by simpa using pa, s, t, hl, fun x hx => by simpa using hs x hx⟩
  · simp [Query.review, List.find?_eq_none]
  · intro r h
    obtain ⟨pr, s, t, hl, hs⟩ := find?_eq_some_first h
    exact ⟨by simpa using pr, s, t, hl, fun x hx => by simpa using hs x hx⟩

/-- Witness for C5: on a store with two games sharing id "7", the resolver
returns the first one, which splits the collection accordingly. -/
theorem findById_first_match_w :
    ({ id := "7", title := "first", platform := [] } : Game).id = "7" ∧
    ∃ s t,
      ({ games := [{ id := "7", title := "first", platform := [] },
                   { id := "7", title := "second", platform := [] }],
         authors := [], reviews := [] } : DB).games
        = s ++ ({ id := "7", title := "first", platform := [] } : Game) :: t ∧
      ∀ x ∈ s, x.id ≠ "7" :=
  (findById_first_match _ "7").2.1 _ (by decide)

/-- C6: for an id matching no game, `updateGame` returns `none`, `deleteGame`
returns the unchanged full collection, and both leave the store entirely
unchanged (silent no-op, no error). -/
theorem updateDelete_missing_noop (db : DB) (id : String) (edits : EditGameInput)
    (h : ∀ g ∈ db.games, g.id ≠ id) :
    (Mutation.updateGame db id edits).1 = none ∧
    (Mutation.updateGame db id edits).2 = db ∧
    (Mutation.deleteGame db id).1 = db.games ∧
    (Mutation.deleteGame db id).2 = db := by
  have hmap :
      db.games.map (fun game => if game.id == id then mergeEdits game edits else game)
        = db.games := by
    have hpt : ∀ a ∈ db.games,
        (if a.id == id then mergeEdits a edits else a) = a := by
      intro a ha
      rw [if_neg]
      simp [h a ha]
    rw [List.map_congr_left hpt]
    exact List.map_id' _
  have hfil : db.games.filter (fun game => game.id != id) = db.games :=
    List.filter_eq_self.mpr (by intro a ha; simp [h a ha])
  refine ⟨?_, ?_, ?_, ?_⟩
  · show (db.games.map _).find? _ = none
    rw [hmap]
    exact List.find?_eq_none.mpr (by intro x hx; simp [h x hx])
  · show { db with games := db.games.map _ } = db
    rw [hmap]
  · show db.games.filter _ = db.games
    exact hfil
  · show { db with games := db.games.filter _ } = db
    rw [hfil]

/-- Witness for C6: id "42" matches no seed game; both mutations are no-ops. -/
theorem updateDelete_missing_noop_w :
    (Mutation.updateGame seedDB "42" { title := none, platform := none }).1 = none ∧
    (Mutation.updateGame seedDB "42" { title := none, platform := none }).2 = seedDB ∧
    (Mutation.deleteGame seedDB "42").1 = seedDB.games ∧
    (Mutation.deleteGame seedDB "42").2 = seedDB :=
  updateDelete_missing_noop seedDB "42" _ (by decide)

/-- C7: a review whose `game_id` matches no game resolves `Review.game` to
`none` rather than failing; after a delete, reviews that referenced the
deleted id resolve to `none`, and `Game.reviews` is unchanged for every game
(the reviews collection is untouched). -/
theorem danglingRef_resolves_none (db : DB) (r : Review) (d : String) :
    ((∀ g ∈ db.games, g.id ≠ r.game_id) → Review.game db r = none) ∧
    (r.game_id = d → Review.game (Mutation.deleteGame db d).2 r = none) ∧
    (∀ g : Game, Game.reviews (Mutation.deleteGame db d).2 g = Game.reviews db g) := by
  refine ⟨?_, ?_, fun g => rfl⟩
  · intro h
    exact List.find?_eq_none.mpr (by intro x hx; simp [h x hx])
  · intro hrd
    apply List.find?_eq_none.mpr
    intro x hx
    have hx2 := (List.mem_filter.mp hx).2
    simp only [hrd]
    simpa using hx2

/-- Witness for C7: after deleting game "1" from the seed data, seed review
"101" (which references it) resolves its game to none. -/
theorem danglingRef_resolves_none_w :
    Review.game (Mutation.deleteGame seedDB "1").2 review101 = none :=
  (danglingRef_resolves_none seedDB review101 "1").2.1 (by decide)

/-- C3: for an id whose first match in the games collection is `g`,
`updateGame` returns the merge of `g` with the edits: fields present in
`edits` are replaced, absent fields and the identifier are unchanged,
games with other ids survive unchanged; concretely, updating game "1" of
the seed data with title "Remastered" leaves its platform untouched. -/
theorem updateGame_merges_fields (db : DB) (id : String) (edits : EditGameInput)
    (g : Game) (h : db.games.find? (fun x => x.id == id) = some g) :
    (Mutation.updateGame db id edits).1 = some (mergeEdits g edits) ∧
    (mergeEdits g edits).id = g.id ∧
    (mergeEdits g edits).title = edits.title.getD g.title ∧
    (mergeEdits g edits).platform = edits.platform.getD g.platform ∧
    (edits.title = none → (mergeEdits g edits).title = g.title) ∧
    (edits.platform = none → (mergeEdits g edits).platform = g.platform) ∧
    (∀ x ∈ db.games, x.id ≠ id → x ∈ (Mutation.updateGame db id edits).2.games) ∧
    (Mutation.updateGame seedDB "1" { title := some "Remastered", platform := none }).1 =
      some { id := "1", title := "Remastered", platform := ["PC", "Switch"] } := by
  refine ⟨?_, rfl, rfl, rfl, ?_, ?_, ?_, by decide⟩
  · show (db.games.map fun x => if x.id == id then mergeEdits x edits else x).find?
        (fun x => x.id == id) = some (mergeEdits g edits)
    rw [List.find?_map]
    have hp : ((fun x : Game => x.id == id) ∘
        fun x => if x.id == id then mergeEdits x edits else x)
        = (fun x : Game => x.id == id) := by
      funext x
      by_cases hx : x.id == id
      · simp [Function.comp, hx, mergeEdits]
      · simp [Function.comp, hx]
    rw [hp, h]
    have hg : g.id = id := by simpa using (find?_eq_some_first h).1
    simp [hg]
  · intro he
    simp [mergeEdits, he]
  · intro he
    simp [mergeEdits, he]
  · intro x hx hne
    have hfix : (if x.id == id then mergeEdits x edits else x) = x := by
      rw [if_neg]
      simp [hne]
    show x ∈ db.games.map fun y : Game => if y.id == id then mergeEdits y edits else y
    exact List.mem_map.mpr ⟨x, hx, hfix⟩

/-- Witness for C3: updating seed game "1" with a title-only edit returns the
merged record. -/
theorem updateGame_merges_fields_w :
    (Mutation.updateGame seedDB "1" { title := some "Remastered", platform := none }).1 =
      some (mergeEdits game1 { title := some "Remastered", platform := none }) :=
  (updateGame_merges_fields seedDB "1" _ game1 (by decide)).1

/-- C8: partial update is idempotent: a second identical `updateGame` call
returns the same record and leaves the same store; fields absent from the
edits keep their value from before the first call. -/
theorem updateGame_idempotent (db : DB) (id : String) (edits : EditGameInput) :
    (Mutation.updateGame (Mutation.updateGame db id edits).2 id edits).1 =
      (Mutation.updateGame db id edits).1 ∧
    (Mutation.updateGame (Mutation.updateGame db id edits).2 id edits).2 =
      (Mutation.updateGame db id edits).2 ∧
    (edits.title = none →
      (Mutation.updateGame db id edits).2.games.map Game.title
        = db.games.map Game.title) ∧
    (edits.platform = none →
      (Mutation.updateGame db id edits).2.games.map Game.platform
        = db.games.map Game.platform) := by
  have hff : ∀ x : Game,
      (fun y : Game => if y.id == id then mergeEdits y edits else y)
        ((fun y : Game => if y.id == id then mergeEdits y edits else y) x)
      = (fun y : Game => if y.id == id then mergeEdits y edits else y) x := by
    intro x
    by_cases hx : x.id == id
    · simp only [if_pos hx]
      rw [if_pos]
      · cases et : edits.title <;> cases ep : edits.platform <;>
          simp [mergeEdits, et, ep]
      · exact hx
    · simp only [if_neg hx]
  have h2 : ((db.games.map fun y : Game =>
        if y.id == id then mergeEdits y edits else y).map fun y : Game =>
        if y.id == id then mergeEdits y edits else y)
      = db.games.map fun y : Game => if y.id == id then mergeEdits y edits else y := by
    rw [List.map_map]
    exact List.map_congr_left (fun a _ => hff a)
  refine ⟨?_, ?_, ?_, ?_⟩
  · show ((db.games.map _).map _).find? _ = (db.games.map _).find? _
    rw [h2]
  · show ({ db with games := (db.games.map _).map _ } : DB)
        = { db with games := db.games.map _ }
    rw [h2]
  · intro he
    show (db.games.map _).map Game.title = db.games.map Game.title
    rw [List.map_map]
    apply List.map_congr_left
    intro a _
    by_cases hx : a.id == id
    · simp [Function.comp, hx, mergeEdits, he]
    · simp [Function.comp, hx]
  · intro he
    show (db.games.map _).map Game.platform = db.games.map Game.platform
    rw [List.map_map]
    apply List.map_congr_left
    intro a _
    by_cases hx : a.id == id
    · simp [Function.comp, hx, mergeEdits, he]
    · simp [Function.comp, hx]

/-- Witness for C8: a title-only edit on the seed data leaves every platform
value unchanged. -/
theorem updateGame_idempotent_w :
    (Mutation.updateGame seedDB "1" { title := some "New", platform := none }).2.games.map
        Game.platform = seedDB.games.map Game.platform :=
  (updateGame_idempotent seedDB "1" _).2.2.2 rfl

/-- C9: every mutation leaves the authors and reviews collections entirely
unchanged; no operation of the core creates, modifies, or deletes an
Author or a Review. -/
theorem mutations_preserve_authors_reviews (db : DB) (rand : ℚ)
    (input : AddGameInput) (id : String) (edits : EditGameInput) :
    (Mutation.addGame db rand input).2.authors = db.authors ∧
    (Mutation.addGame db rand input).2.reviews = db.reviews ∧
    (Mutation.updateGame db id edits).2.authors = db.authors ∧
    (Mutation.updateGame db id edits).2.reviews = db.reviews ∧
    (Mutation.deleteGame db id).2.authors = db.authors ∧
    (Mutation.deleteGame db id).2.reviews = db.reviews :=
  ⟨rfl, rfl, rfl, rfl, rfl, rfl⟩

/-- The input of the round-trip scenario of the spec. -/
def eldenRing : AddGameInput :=
  { title := "Elden Ring", platform := ["PC", "PlayStation", "Xbox"] }

/-- Counterexample for C2: the generated id is not always unused.  With the
draw 1/10000, `Math.floor(rand * 10000)` is 1, so `addGame` on the seed data
generates id "1" even though seed game "1" already bears it. -/
theorem addGame_unused_id_cex :
    ¬ ∀ g ∈ seedDB.games,
        g.id ≠ (Mutation.addGame seedDB (1/10000) eldenRing).1.id := by
  have hid : (Mutation.addGame seedDB (1/10000) eldenRing).1.id = "1" := by
    show genId (1/10000) = "1"
    unfold genId
    norm_num
    rfl
  intro hall
  exact hall game1 (by decide) (by rw [hid]; decide)

/-- C2 (amended): `addGame` returns a Game whose id is a non-empty string and
whose title and platform equal the input verbatim; the new game is appended at
the end of the games collection and `listGames` includes it; whenever the
generated id differs from the id of every game already in the collection, a
subsequent `findGameById` with that id returns an equal record.  (The original
claim also asserted the generated id never equals an existing id, which the
random generator does not guarantee.) -/
theorem addGame_spec (db : DB) (rand : ℚ) (input : AddGameInput)
    (_h0 : 0 ≤ rand) (_h1 : rand < 1) :
    (Mutation.addGame db rand input).1.title = input.title ∧
    (Mutation.addGame db rand input).1.platform = input.platform ∧
    (Mutation.addGame db rand input).1.id ≠ "" ∧
    (Mutation.addGame db rand input).2.games
      = db.games ++ [(Mutation.addGame db rand input).1] ∧
    (Mutation.addGame db rand input).1 ∈ Query.games (Mutation.addGame db rand input).2 ∧
    ((∀ g ∈ db.games, g.id ≠ (Mutation.addGame db rand input).1.id) →
      Query.game (Mutation.addGame db rand input).2 (Mutation.addGame db rand input).1.id
        = some (Mutation.addGame db rand input).1) := by
  refine ⟨rfl, rfl, ?_, rfl, ?_, ?_⟩
  · show genId rand ≠ ""
    intro hE
    have hlen : 1 ≤ (genId rand).length := one_le_repr_length _
    rw [hE] at hlen
    simp at hlen
  · show (Mutation.addGame db rand input).1
      ∈ db.games ++ [(Mutation.addGame db rand input).1]
    simp
  · intro h
    show (db.games ++ [(Mutation.addGame db rand input).1]).find?
        (fun x => x.id == (Mutation.addGame db rand input).1.id)
      = some (Mutation.addGame db rand input).1
    rw [List.find?_append]
    have hnone : db.games.find?
        (fun x => x.id == (Mutation.addGame db rand input).1.id) = none :=
      List.find?_eq_none.mpr (by intro x hx; simp [h x hx])
    rw [hnone]
    simp [List.find?]

/-- Witness for C2: with draw 0 the generated id is "0", fresh for the seed
data, so the round trip succeeds. -/
theorem addGame_spec_w :
    (Mutation.addGame seedDB 0 eldenRing).1.title = "Elden Ring" ∧
    Query.game (Mutation.addGame seedDB 0 eldenRing).2
        (Mutation.addGame seedDB 0 eldenRing).1.id
      = some (Mutation.addGame seedDB 0 eldenRing).1 :=
  ⟨(addGame_spec seedDB 0 eldenRing (le_refl 0) zero_lt_one).1,
   (addGame_spec seedDB 0 eldenRing (le_refl 0) zero_lt_one).2.2.2.2.2 (by
     have hid : (Mutation.addGame seedDB 0 eldenRing).1.id = "0" := by
       show genId 0 = "0"
       simp only [genId, zero_mul, Int.floor_zero, Int.toNat_zero]
       decide
     rw [hid]
     decide)⟩

/-- Counterexample for C4: deleteGame does not always remove exactly one
record.  After the id collision of the C2 counterexample (draw 1/10000
generates id "1", already borne by a seed game), id "1" is present in the
collection of four games, yet deleteGame "1" leaves two games, not three. -/
theorem deleteGame_removes_one_cex :
    "1" ∈ (Mutation.addGame seedDB (1/10000) eldenRing).2.games.map Game.id ∧
    (Mutation.deleteGame (Mutation.addGame seedDB (1/10000) eldenRing).2 "1").1.length
      ≠ (Mutation.addGame seedDB (1/10000) eldenRing).2.games.length - 1 := by
  have hid : genId (1/10000) = "1" := by
    unfold genId
    norm_num
    rfl
  have hgames : (Mutation.addGame seedDB (1/10000) eldenRing).2.games
      = db.games ++ [{ id := "1", title := "Elden Ring",
                       platform := ["PC", "PlayStation", "Xbox"] }] := by
    show db.games ++ [{ id := genId (1/10000), title := eldenRing.title,
                        platform := eldenRing.platform }] = _
    rw [hid]
    rfl
  constructor
  · rw [hgames]
    decide
  · show ((Mutation.addGame seedDB (1/10000) eldenRing).2.games.filter
        (fun game => game.id != "1")).length
      ≠ (Mutation.addGame seedDB (1/10000) eldenRing).2.games.length - 1
    rw [hgames]
    decide

/-- C4 (amended): for an id that exactly one game in the collection bears (the
uniqueness invariant the spec intends), `deleteGame` removes exactly that
record, returns the resulting full games collection (not the deleted record)
of length `originalLength - 1`, and a second call with the same id is a no-op
returning the unchanged collection.  (The original claim quantified over any
present id; with a duplicated id, which the random id generator can produce,
every copy is removed — see the counterexample.) -/
theorem deleteGame_spec (db : DB) (id : String)
    (h : db.games.countP (fun g => g.id == id) = 1) :
    (∃ s g t, db.games = s ++ g :: t ∧ g.id = id ∧
      (Mutation.deleteGame db id).1 = s ++ t) ∧
    (Mutation.deleteGame db id).1.length = db.games.length - 1 ∧
    (Mutation.deleteGame db id).1 = (Mutation.deleteGame db id).2.games ∧
    (Mutation.deleteGame (Mutation.deleteGame db id).2 id).1
      = (Mutation.deleteGame db id).1 ∧
    (Mutation.deleteGame (Mutation.deleteGame db id).2 id).2
      = (Mutation.deleteGame db id).2 := by
  obtain ⟨s, g, t, hl, pg, _hs, _ht, hf⟩ := countP_eq_one_decomp _ _ h
  have hfe : db.games.filter (fun x => x.id != id) = s ++ t := by
    have hbne : (fun x : Game => x.id != id) = fun x => !(x.id == id) := rfl
    rw [hbne, hf]
  have hidem : ((db.games.filter fun x => x.id != id).filter fun x => x.id != id)
      = db.games.filter fun x => x.id != id :=
    List.filter_eq_self.mpr (fun a ha => (List.mem_filter.mp ha).2)
  refine ⟨⟨s, g, t, hl, by simpa using pg, hfe⟩, ?_, rfl, ?_, ?_⟩
  · show (db.games.filter fun x => x.id != id).length = db.games.length - 1
    rw [hfe, hl]
    simp only [List.length_append, List.length_cons]
    omega
  · show ((db.games.filter fun x => x.id != id).filter fun x => x.id != id)
      = db.games.filter fun x => x.id != id
    exact hidem
  · show ({ db with games :=
        (db.games.filter fun x => x.id != id).filter fun x => x.id != id } : DB)
      = { db with games := db.games.filter fun x => x.id != id }
    rw [hidem]

/-- Witness for C4: seed id "2" is borne by exactly one game, and deleting it
shrinks the collection from three games to two. -/
theorem deleteGame_spec_w :
    (Mutation.deleteGame seedDB "2").1.length = seedDB.games.length - 1 :=
  (deleteGame_spec seedDB "2" (by decide)).2.1

/-- C10: for every draw of `Math.random()` (a number in `[0, 1)`), the id
generated by `addGame` is the decimal representation of a natural number
`n ≤ 9999`, hence a non-empty string of at most four characters, and lies in
the fixed list of the 10000 producible ids. -/
theorem addGame_id_bounds (rand : ℚ) (h0 : 0 ≤ rand) (h1 : rand < 1) :
    ∃ n : ℕ, n ≤ 9999 ∧
      (∀ (db : DB) (input : AddGameInput),
        (Mutation.addGame db rand input).1.id = Nat.repr n) ∧
      1 ≤ (genId rand).length ∧ (genId rand).length ≤ 4 ∧
      genId rand ∈ (List.range 10000).map Nat.repr := by
  have hmul0 : (0:ℚ) ≤ rand * 10000 := mul_nonneg h0 (by norm_num)
  have hmul1 : rand * 10000 < 10000 := by
    have hm := mul_lt_mul_of_pos_right h1 (show (0:ℚ) < 10000 by norm_num)
    simpa using hm
  have hf0 : 0 ≤ ⌊rand * 10000⌋ := Int.floor_nonneg.mpr hmul0
  have hf1 : ⌊rand * 10000⌋ < 10000 := by
    rw [Int.floor_lt]
    exact_mod_cast hmul1
  refine ⟨(⌊rand * 10000⌋).toNat, by omega, fun db input => rfl,
    one_le_repr_length _, ?_, ?_⟩
  · have hlt : (⌊rand * 10000⌋).toNat < 10 ^ 4 := by
      have h4 : (10:ℕ) ^ 4 = 10000 := by norm_num
      rw [h4]
      omega
    exact Nat.repr_length _ 4 (by norm_num) hlt
  · exact List.mem_map.mpr
      ⟨(⌊rand * 10000⌋).toNat, List.mem_range.mpr (by omega), rfl⟩

/-- Witness for C10 at draw 0. -/
theorem addGame_id_bounds_w :
    ∃ n : ℕ, n ≤ 9999 ∧
      (∀ (db : DB) (input : AddGameInput),
        (Mutation.addGame db 0 input).1.id = Nat.repr n) ∧
      1 ≤ (genId 0).length ∧ (genId 0).length ≤ 4 ∧
      genId 0 ∈ (List.range 10000).map Nat.repr :=
  addGame_id_bounds 0 (le_refl 0) zero_lt_one
